import Mathlib

/-!
Verification of the dsa-webscraper scheduling and job-queue core.

The development shallowly embeds the relevant JavaScript modules:
the schedule calculator (server/utils/scheduler.js, also present in the
concatenated server.js), the auto-scheduler service
(server/services/auto-scheduler.js), and the process-management state of
the scraping endpoints (server.js / routes/scraping.js).

Time is modelled as milliseconds since the Unix epoch (an Int), with the
local timezone taken as UTC and no DST, so the JavaScript Date accessors
used by the source become pure arithmetic on the epoch value.
-/

deriving instance DecidableEq for Except

namespace DsaScraper

def msPerHour : Int := 3600000

def msPerDay : Int := 86400000

/-- Proleptic-Gregorian leap-year rule, as implemented by JS Date. -/
def isLeapYear (y : Int) : Bool := y % 4 == 0 && (y % 100 != 0 || y % 400 == 0)

/-- Number of days in a (zero-based, JS-style) month; this is the value the
source computes as new Date(year, month + 1, 0).getDate(). -/
def daysInMonth (y : Int) (m : Nat) : Int :=
  if m = 0 then 31 else if m = 1 then (if isLeapYear y then 29 else 28)
  else if m = 2 then 31 else if m = 3 then 30 else if m = 4 then 31
  else if m = 5 then 30 else if m = 6 then 31 else if m = 7 then 31
  else if m = 8 then 30 else if m = 9 then 31 else if m = 10 then 30 else 31

/-- Days since 1970-01-01 of the civil date (y, m, d) with zero-based month
(Hinnant's days_from_civil, the arithmetic underlying JS Date). -/
def daysFromCivil (y : Int) (m : Nat) (d : Int) : Int :=
  let yAdj : Int := if m ≤ 1 then y - 1 else y
  let era : Int := yAdj / 400
  let yoe : Int := yAdj - era * 400
  let mp : Int := ((m : Int) + 10) % 12
  let doy : Int := (153 * mp + 2) / 5 + d - 1
  let doe : Int := yoe * 365 + yoe / 4 - yoe / 100 + doy
  era * 146097 + doe - 719468

/-- Civil date (year, zero-based month, day) of a count of days since the
epoch (Hinnant's civil_from_days). -/
def civilFromDays (z0 : Int) : Int × Nat × Nat :=
  let z := z0 + 719468
  let era : Int := z / 146097
  let doe : Int := z - era * 146097
  let yoe : Int := (doe - doe / 1460 + doe / 36524 - doe / 146096) / 365
  let y : Int := yoe + era * 400
  let doy : Int := doe - (365 * yoe + yoe / 4 - yoe / 100)
  let mp : Int := (5 * doy + 2) / 153
  let d : Int := doy - (153 * mp + 2) / 5 + 1
  let m1 : Int := mp + (if mp < 10 then 3 else -9)
  (y + (if m1 ≤ 2 then 1 else 0), (m1 - 1).toNat, d.toNat)

def epochDays (t : Int) : Int := t / msPerDay

def msOfDay (t : Int) : Int := t % msPerDay

/-- JS Date.getHours under the UTC-as-local convention. -/
def getHours (t : Int) : Int := msOfDay t / msPerHour

/-- JS Date.getDay: day of week, 0 = Sunday (1970-01-01 was a Thursday). -/
def getDay (t : Int) : Int := (epochDays t + 4) % 7

def getFullYear (t : Int) : Int := (civilFromDays (epochDays t)).1

def getMonth (t : Int) : Nat := (civilFromDays (epochDays t)).2.1

def getDate (t : Int) : Int := ((civilFromDays (epochDays t)).2.2 : Int)

/-- Instant of the civil date (y, m, d) at ms milliseconds after local midnight. -/
def mkTime (y : Int) (m : Nat) (d : Int) (ms : Int) : Int :=
  daysFromCivil y m d * msPerDay + ms

/-- Email settings row as consumed by the scheduler
(database/email-settings.js getEmailSettings). -/
structure EmailSettings where
  emails : String
  frequency : String
  weeklyDay : String
  monthlyDay : Int
deriving Repr, DecidableEq

/-- The three distinct error throws of the schedule calculator. -/
inductive ScheduleError where
  | unsupportedFrequency
  | invalidWeeklyDay
  | invalidMonthlyDay
deriving Repr, DecidableEq

/-- ASCII lower-casing of one character. -/
def lowerChar (c : Char) : Char :=
  if 'A' ≤ c ∧ c ≤ 'Z' then Char.ofNat (c.toNat + 32) else c

/-- The effect of String.prototype.toLowerCase on the ASCII day names. -/
def toLowerCase (s : String) : String := ⟨s.data.map lowerChar⟩

/-- The dayMap table of calculateNextWeeklyTime. -/
def dayMap (s : String) : Option Nat :=
  if s = "sunday" then some 0
  else if s = "monday" then some 1
  else if s = "tuesday" then some 2
  else if s = "wednesday" then some 3
  else if s = "thursday" then some 4
  else if s = "friday" then some 5
  else if s = "saturday" then some 6
  else none

/-- Embedding of calculateNextWeeklyTime: today at 04:00 shifted forward by
daysUntilTarget days, where daysUntilTarget is the day-of-week difference,
pushed a week ahead when negative or when today's 04:00 has passed. -/
def calculateNextWeeklyTime (now : Int) (weeklyDay : String) : Except ScheduleError Int :=
  match dayMap (toLowerCase weeklyDay) with
  | none => .error .invalidWeeklyDay
  | some targetDay =>
    let currentDay := getDay now
    let delta := (targetDay : Int) - currentDay
    let daysUntilTarget := if delta < 0 ∨ (delta = 0 ∧ 4 ≤ getHours now) then delta + 7 else delta
    .ok (epochDays now * msPerDay + 4 * msPerHour + daysUntilTarget * msPerDay)

/-- Embedding of getValidDayForMonth. -/
def getValidDayForMonth (year : Int) (month : Nat) (requestedDay : Int) : Int :=
  let lastDayOfMonth := daysInMonth year month
  if requestedDay ≤ lastDayOfMonth then requestedDay else lastDayOfMonth

/-- The (year, zero-based month) targeted by calculateNextMonthlyTime: the
current month, advanced by one (with December rollover) exactly when
now.getDate() > monthlyDay or now.getDate() === monthlyDay with hours >= 4. -/
def resolveMonthlyTarget (now : Int) (monthlyDay : Int) : Int × Nat :=
  let y := getFullYear now
  let m := getMonth now
  if getDate now > monthlyDay ∨ (getDate now = monthlyDay ∧ 4 ≤ getHours now) then
    if m = 11 then (y + 1, 0) else (y, m + 1)
  else (y, m)

/-- Embedding of calculateNextMonthlyTime: validate the requested day, resolve
the target month, clamp the day into the month, and land at 04:00. -/
def calculateNextMonthlyTime (now : Int) (monthlyDay : Int) : Except ScheduleError Int :=
  if monthlyDay < 1 ∨ 31 < monthlyDay then .error .invalidMonthlyDay
  else
    let target := resolveMonthlyTarget now monthlyDay
    let targetDay := getValidDayForMonth target.1 target.2 monthlyDay
    .ok (mkTime target.1 target.2 targetDay (4 * msPerHour))

/-- Embedding of calculateNextScheduledTime, with the current instant passed
explicitly (the source reads it through the overridable getCurrentDate). -/
def calculateNextScheduledTime (now : Int) (settings : EmailSettings) : Except ScheduleError Int :=
  if settings.frequency = "weekly" then calculateNextWeeklyTime now settings.weeklyDay
  else if settings.frequency = "monthly" then calculateNextMonthlyTime now settings.monthlyDay
  else .error .unsupportedFrequency

/-- Embedding of getMillisecondsUntilNext. -/
def getMillisecondsUntilNext (now : Int) (settings : EmailSettings) : Except ScheduleError Int :=
  (calculateNextScheduledTime now settings).map (fun nextTime => nextTime - now)

/-! ### Queue-manager / process-management model

Embedding of the module-level process-management state of server.js
(variables currentScrapingProcess / currentScrapingJob) together with the
scraping_jobs table and the live worker processes, and of the request
handlers that mutate them: the county scrape endpoint, the legacy
start-scraping and stop-scraping endpoints, the stop-job endpoint (stopJob)
and retryJob.  Worker exit events are modelled explicitly: Node delivers
the exit callback of a child process on a later event-loop turn, also for
processes that were killed.  Jobs are created by the server.js
createScrapingJob, which inserts them with status running.  Progress
counters and error-message text are elided; no claim mentions them. -/

inductive JobStatus where
  | pending
  | running
  | completed
  | failed
  | stopped
deriving Repr, DecidableEq

/-- One row of the scraping_jobs table. -/
structure Job where
  county : String
  status : JobStatus
  completedAt : Option Nat
deriving Repr, DecidableEq

/-- Which exit handler was registered on a spawned worker: the county-scrape
endpoint registers a handler that records completed/failed on the job and
clears the globals; the legacy start-scraping handler only clears the
globals; retryJob registers no exit handler at all. -/
inductive ProcKind where
  | county
  | legacy
  | retry
deriving Repr, DecidableEq

/-- A spawned worker process.  alive models exitCode === null; killed models
the flag set by ChildProcess.kill. -/
structure Proc where
  jobId : Nat
  kind : ProcKind
  alive : Bool
  killed : Bool
deriving Repr, DecidableEq

/-- Outcome of a request handler: 200 success, 400 error payload, 404/500. -/
inductive Resp where
  | ok
  | badRequest
  | notFound
deriving Repr, DecidableEq

structure QState where
  jobs : Nat → Option Job
  procs : Nat → Option Proc
  nextJobId : Nat
  nextPid : Nat
  currentScrapingJob : Option Nat
  currentScrapingProcess : Option Nat
  counties : String → Option Bool
  clock : Nat
  lastRes : Option Resp

/-- The guard expression currentScrapingProcess && exitCode === null. -/
def procAlive (s : QState) : Bool :=
  match s.currentScrapingProcess with
  | none => false
  | some pid =>
    match s.procs pid with
    | none => false
    | some p => p.alive

def setJob (s : QState) (jobId : Nat) (job : Job) : QState :=
  { s with jobs := fun j => if j = jobId then some job else s.jobs j }

def setProc (s : QState) (pid : Nat) (p : Proc) : QState :=
  { s with procs := fun i => if i = pid then some p else s.procs i }

/-- Create a scraping job (server.js createScrapingJob: status running) and
spawn a worker for it, setting both module globals — the shared tail of the
county scrape, legacy start-scraping and retryJob handlers. -/
def spawnJob (s : QState) (code : String) (kind : ProcKind) : QState :=
  let jobId := s.nextJobId
  let pid := s.nextPid
  let s1 := setJob s jobId { county := code, status := .running, completedAt := none }
  let s2 := setProc s1 pid { jobId := jobId, kind := kind, alive := true, killed := false }
  { s2 with nextJobId := jobId + 1, nextPid := pid + 1,
            currentScrapingJob := some jobId, currentScrapingProcess := some pid,
            lastRes := some .ok }

/-- Set the killed flag on the tracked process, as the
if (currentScrapingProcess && !currentScrapingProcess.killed) kill branch does. -/
def killCurrentProc (s : QState) : QState :=
  match s.currentScrapingProcess with
  | none => s
  | some pid =>
    match s.procs pid with
    | none => s
    | some p => if p.killed then s else setProc s pid { p with killed := true }

/-- The events that touch the process-management state: the four request
handlers named by the claims, plus delivery of a worker's exit event. -/
inductive QEvent where
  | countyScrape (code : String)
  | startScraping (code : String)
  | stopScraping
  | stopJobReq (jobId : Nat)
  | retryReq (jobId : Nat)
  | procExit (pid : Nat) (exitCode : Int)

/-- One event-loop turn of the server. -/
def qstep (s0 : QState) (ev : QEvent) : QState :=
  let s := { s0 with clock := s0.clock + 1, lastRes := none }
  match ev with
  | .countyScrape code =>
    match s.counties code with
    | none => { s with lastRes := some .notFound }
    | some enabled =>
      if !enabled then { s with lastRes := some .badRequest }
      else if procAlive s then { s with lastRes := some .badRequest }
      else spawnJob s code .county
  | .startScraping code =>
    match s.currentScrapingJob with
    | some _ => { s with lastRes := some .badRequest }
    | none => spawnJob s code .legacy
  | .stopScraping =>
    match s.currentScrapingJob with
    | none => { s with lastRes := some .badRequest }
    | some jobId =>
      let s1 :=
        match s.jobs jobId with
        | none => s
        | some job => setJob s jobId { job with status := .stopped, completedAt := some s.clock }
      let s2 := killCurrentProc s1
      { s2 with currentScrapingJob := none, currentScrapingProcess := none,
                lastRes := some .ok }
  | .stopJobReq jobId =>
    let s1 :=
      match s.jobs jobId with
      | none => s
      | some job => setJob s jobId { job with status := .stopped, completedAt := some s.clock }
    let s2 :=
      if s1.currentScrapingJob = some jobId then
        let s1k := killCurrentProc s1
        { s1k with currentScrapingJob := none, currentScrapingProcess := none }
      else s1
    { s2 with lastRes := some .ok }
  | .retryReq jobId =>
    match s.jobs jobId with
    | none => { s with lastRes := some .notFound }
    | some job =>
      match s.counties job.county with
      | none => { s with lastRes := some .badRequest }
      | some enabled =>
        if !enabled then { s with lastRes := some .badRequest }
        else if procAlive s then { s with lastRes := some .badRequest }
        else spawnJob s job.county .retry
  | .procExit pid exitCode =>
    match s.procs pid with
    | none => s
    | some p =>
      if !p.alive then s
      else
        let s1 := setProc s pid { p with alive := false }
        match p.kind with
        | .county =>
          let s2 :=
            match s1.jobs p.jobId with
            | none => s1
            | some job =>
              setJob s1 p.jobId
                { job with status := if exitCode = 0 then .completed else .failed,
                           completedAt := some s.clock }
          { s2 with currentScrapingJob := none, currentScrapingProcess := none }
        | .legacy =>
          { s1 with currentScrapingJob := none, currentScrapingProcess := none }
        | .retry => s1

def qrun (s : QState) (evs : List QEvent) : QState := evs.foldl qstep s

/-- Server start-up state, with one enabled county registered. -/
def initQ : QState :=
  { jobs := fun _ => none, procs := fun _ => none, nextJobId := 1, nextPid := 1,
    currentScrapingJob := none, currentScrapingProcess := none,
    counties := fun c => if c = "34" then some true else none,
    clock := 0, lastRes := none }

def statusOf (s : QState) (jobId : Nat) : Option JobStatus :=
  (s.jobs jobId).map Job.status

/-- Event sequence exhibiting the stale-exit-handler race: scrape county 34
(job 1, pid 1), stop it (kill sent, exit not yet delivered), scrape again
(job 2, pid 2), then pid 1's exit event fires — its handler unconditionally
clears the module globals, orphaning the live pid 2 — and a third scrape
request passes the guard and spawns pid 3 (job 3). -/
def staleExitTrace : List QEvent :=
  [.countyScrape "34", .stopScraping, .countyScrape "34",
   .procExit 1 143, .countyScrape "34"]

/-! ### Auto-scheduler model

Embedding of services/auto-scheduler.js.  The AutoScheduler instance fields
timeoutId / isScheduled / lastScheduledTime are modelled together with the
runtime's table of armed timers, so that timer leaks would be observable.
The outcome of the awaited getEmailSettings call is passed in as an Except
value (an error models the promise rejecting); the schedule calculator is
the embedding above, so its throws are real.  queueAllEnabledCounties is
likewise passed in as an Except value, since executeScheduledRun only logs
its outcome. -/

inductive TimerKind where
  | executeRun
  | retrySched
deriving Repr, DecidableEq

/-- A pending setTimeout registration. -/
structure ArmedTimer where
  id : Nat
  kind : TimerKind
  delay : Int
deriving Repr, DecidableEq

structure SchedulerState where
  timeoutId : Option Nat
  isScheduled : Bool
  lastScheduledTime : Option Int
  armed : List ArmedTimer
  nextTimerId : Nat
deriving Repr, DecidableEq

/-- The JS test !settings.emails || settings.emails.trim().length === 0,
with a null emails column modelled as the empty string. -/
def isBlank (s : String) : Bool := s.data.all (fun c => c = ' ')

def setTimeout (s : SchedulerState) (kind : TimerKind) (delay : Int) : SchedulerState × Nat :=
  ({ s with armed := s.armed ++ [⟨s.nextTimerId, kind, delay⟩],
            nextTimerId := s.nextTimerId + 1 }, s.nextTimerId)

/-- Embedding of AutoScheduler.stop: clearTimeout on the held handle,
then null it and drop isScheduled. -/
def stopAutoScheduler (s : SchedulerState) : SchedulerState :=
  match s.timeoutId with
  | none => s
  | some id =>
    { s with armed := s.armed.filter (fun t => t.id ≠ id),
             timeoutId := none, isScheduled := false }

/-- Embedding of AutoScheduler.scheduleNext: clear any existing timeout,
read the settings, bail out silently when no emails are configured,
otherwise arm a timer for the computed delay; any error (settings read or
calculator) is caught and a fixed one-hour retry timer is armed instead. -/
def scheduleNext (now : Int) (settingsRes : Except Unit EmailSettings)
    (s : SchedulerState) : SchedulerState :=
  let s1 := stopAutoScheduler s
  match settingsRes with
  | .error _ =>
    let armedRetry := setTimeout s1 .retrySched 3600000
    { armedRetry.1 with timeoutId := some armedRetry.2 }
  | .ok settings =>
    if isBlank settings.emails then s1
    else
      match calculateNextScheduledTime now settings with
      | .ok nextTime =>
        let armedRun := setTimeout s1 .executeRun (nextTime - now)
        { armedRun.1 with timeoutId := some armedRun.2, isScheduled := true,
                          lastScheduledTime := some nextTime }
      | .error _ =>
        let armedRetry := setTimeout s1 .retrySched 3600000
        { armedRetry.1 with timeoutId := some armedRetry.2 }

/-- Embedding of AutoScheduler.executeScheduledRun: try
queueAllEnabledCounties (outcome passed in, success or failure), catch and
log, and in the finally block unconditionally call scheduleNext again. -/
def executeScheduledRun (now : Int) (settingsRes : Except Unit EmailSettings)
    (queueRes : Except Unit (List Nat)) (s : SchedulerState) : SchedulerState :=
  let _ := queueRes
  scheduleNext now settingsRes s

/-- Delivery of the earliest armed timer: the runtime removes it from the
pending table and runs its callback — executeScheduledRun for a normal
timer, scheduleNext for the one-hour fallback retry. -/
def fireTimer (now : Int) (settingsRes : Except Unit EmailSettings)
    (queueRes : Except Unit (List Nat)) (s : SchedulerState) : SchedulerState :=
  match s.armed with
  | [] => s
  | t :: rest =>
    let s1 := { s with armed := rest }
    match t.kind with
    | .executeRun => executeScheduledRun now settingsRes queueRes s1
    | .retrySched => scheduleNext now settingsRes s1

/-- The operations that can touch the AutoScheduler singleton in one
event-loop turn. -/
inductive SchedulerOp where
  | rearm (now : Int) (settingsRes : Except Unit EmailSettings)
  | timerFires (now : Int) (settingsRes : Except Unit EmailSettings)
      (queueRes : Except Unit (List Nat))
  | stopCall

def schedulerStep (s : SchedulerState) (op : SchedulerOp) : SchedulerState :=
  match op with
  | .rearm now settingsRes => scheduleNext now settingsRes s
  | .timerFires now settingsRes queueRes => fireTimer now settingsRes queueRes s
  | .stopCall => stopAutoScheduler s

/-- The scheduler owns its timers: at most one timer is pending, and a
pending timer is the one the timeoutId field tracks. -/
def SchedulerWF (s : SchedulerState) : Prop :=
  s.armed = [] ∨ ∃ t, s.armed = [t] ∧ s.timeoutId = some t.id

def initScheduler : SchedulerState :=
  { timeoutId := none, isScheduled := false, lastScheduledTime := none,
    armed := [], nextTimerId := 1 }

/-! ### Theorems about the schedule calculator -/

theorem dayMap_le_six (s : String) (t : Nat) (h : dayMap s = some t) : t ≤ 6 := by
  simp only [dayMap] at h
  repeat' split at h
  all_goals simp_all
  all_goals omega

/-- C1: The frequency enum is daily/weekly/monthly, but the schedule
calculator recognizes only weekly and monthly: a config with frequency
daily — a value the repository's own settings UI offers — is rejected with
the UnsupportedFrequency error instead of yielding a fire time.  For the
two implemented frequencies the claimed error behaviour holds:
UnsupportedFrequency exactly outside {weekly, monthly}, InvalidDayValue
exactly on an unrecognized weekly day or a monthly day outside 1–31, and
success otherwise. -/
theorem daily_frequency_unsupported :
    calculateNextScheduledTime (mkTime 2024 0 15 (10 * msPerHour))
      ⟨"a@b.c", "daily", "monday", 1⟩ = .error .unsupportedFrequency ∧
    (∀ (now : Int) (s : EmailSettings), s.frequency ≠ "weekly" → s.frequency ≠ "monthly" →
      calculateNextScheduledTime now s = .error .unsupportedFrequency) ∧
    (∀ (now : Int) (s : EmailSettings) (t : Nat), s.frequency = "weekly" →
      dayMap (toLowerCase s.weeklyDay) = some t →
      ∃ r, calculateNextScheduledTime now s = .ok r) ∧
    (∀ (now : Int) (s : EmailSettings), s.frequency = "weekly" →
      dayMap (toLowerCase s.weeklyDay) = none →
      calculateNextScheduledTime now s = .error .invalidWeeklyDay) ∧
    (∀ (now : Int) (s : EmailSettings), s.frequency = "monthly" →
      1 ≤ s.monthlyDay → s.monthlyDay ≤ 31 →
      ∃ r, calculateNextScheduledTime now s = .ok r) ∧
    (∀ (now : Int) (s : EmailSettings), s.frequency = "monthly" →
      (s.monthlyDay < 1 ∨ 31 < s.monthlyDay) →
      calculateNextScheduledTime now s = .error .invalidMonthlyDay) := by
  refine ⟨by decide, ?_, ?_, ?_, ?_, ?_⟩
  · intro now s h1 h2
    simp [calculateNextScheduledTime, h1, h2]
  · intro now s t hf hd
    simp [calculateNextScheduledTime, hf, calculateNextWeeklyTime, hd]
  · intro now s hf hd
    simp [calculateNextScheduledTime, hf, calculateNextWeeklyTime, hd]
  · intro now s hf h1 h2
    simp only [calculateNextScheduledTime, hf]
    simp [calculateNextMonthlyTime, if_neg (by omega : ¬(s.monthlyDay < 1 ∨ 31 < s.monthlyDay))]
  · intro now s hf hd
    simp only [calculateNextScheduledTime, hf]
    simp [calculateNextMonthlyTime, if_pos hd]

theorem daily_frequency_unsupported_witness :
    calculateNextScheduledTime 0 ⟨"a@b.c", "hourly", "monday", 1⟩
      = .error .unsupportedFrequency ∧
    (∃ r, calculateNextScheduledTime 0 ⟨"a@b.c", "monthly", "monday", 15⟩ = .ok r) ∧
    calculateNextScheduledTime 0 ⟨"a@b.c", "weekly", "noday", 1⟩
      = .error .invalidWeeklyDay ∧
    calculateNextScheduledTime 0 ⟨"a@b.c", "monthly", "monday", 32⟩
      = .error .invalidMonthlyDay :=
  ⟨daily_frequency_unsupported.2.1 0 _ (by decide) (by decide),
   daily_frequency_unsupported.2.2.2.2.1 0 _ rfl (by decide) (by decide),
   daily_frequency_unsupported.2.2.2.1 0 _ rfl (by decide),
   daily_frequency_unsupported.2.2.2.2.2 0 _ rfl (by decide)⟩

/-- C3: When the requested monthly day does not exist in the resolved target
month, calculateNextMonthlyTime returns the last day of that month at
04:00 — and concretely, now = 2024-01-31T10:00 with monthlyDay = 31 yields
2024-02-29T04:00, the leap-year end of February. -/
theorem monthly_clamp_last_day :
    (∀ (now monthlyDay : Int), 1 ≤ monthlyDay → monthlyDay ≤ 31 →
      daysInMonth (resolveMonthlyTarget now monthlyDay).1
          (resolveMonthlyTarget now monthlyDay).2 < monthlyDay →
      calculateNextMonthlyTime now monthlyDay =
        .ok (mkTime (resolveMonthlyTarget now monthlyDay).1
          (resolveMonthlyTarget now monthlyDay).2
          (daysInMonth (resolveMonthlyTarget now monthlyDay).1
            (resolveMonthlyTarget now monthlyDay).2)
          (4 * msPerHour))) ∧
    calculateNextScheduledTime (mkTime 2024 0 31 (10 * msPerHour))
      ⟨"a@b.c", "monthly", "monday", 31⟩ = .ok (mkTime 2024 1 29 (4 * msPerHour)) := by
  constructor
  · intro now d h1 h2 hclamp
    simp only [calculateNextMonthlyTime, getValidDayForMonth]
    rw [if_neg (by omega), if_neg (by omega)]
  · decide

theorem monthly_clamp_last_day_witness :
    calculateNextMonthlyTime (mkTime 2024 0 31 (10 * msPerHour)) 31 =
      .ok (mkTime (resolveMonthlyTarget (mkTime 2024 0 31 (10 * msPerHour)) 31).1
        (resolveMonthlyTarget (mkTime 2024 0 31 (10 * msPerHour)) 31).2
        (daysInMonth (resolveMonthlyTarget (mkTime 2024 0 31 (10 * msPerHour)) 31).1
          (resolveMonthlyTarget (mkTime 2024 0 31 (10 * msPerHour)) 31).2)
        (4 * msPerHour)) :=
  monthly_clamp_last_day.1 (mkTime 2024 0 31 (10 * msPerHour)) 31
    (by decide) (by decide) (by decide)

/-- C4: For a weekly config with a recognized day, the computed fire time
falls on that day of the week, at exactly 04:00, strictly after now, and at
most 7 days + 24 hours after now. -/
theorem weekly_next_time_spec :
    ∀ (now : Int) (s : EmailSettings) (t : Nat), s.frequency = "weekly" →
      dayMap (toLowerCase s.weeklyDay) = some t →
      ∃ r, calculateNextScheduledTime now s = .ok r ∧
        getDay r = t ∧ msOfDay r = 4 * msPerHour ∧ now < r ∧
        r - now ≤ 7 * msPerDay + 24 * msPerHour := by
  intro now s t hf hd
  have ht : t ≤ 6 := dayMap_le_six _ _ hd
  simp only [calculateNextScheduledTime, hf, if_pos, reduceIte,
    calculateNextWeeklyTime, hd]
  refine ⟨_, rfl, ?_, ?_, ?_, ?_⟩ <;>
    simp only [getDay, epochDays, msOfDay, getHours, msPerDay, msPerHour] <;>
    split <;> omega

theorem weekly_next_time_spec_witness :
    ∃ r, calculateNextScheduledTime (mkTime 2024 0 15 (10 * msPerHour))
        ⟨"a@b.c", "weekly", "monday", 1⟩ = .ok r ∧
      getDay r = 1 ∧ msOfDay r = 4 * msPerHour ∧
      mkTime 2024 0 15 (10 * msPerHour) < r ∧
      r - mkTime 2024 0 15 (10 * msPerHour) ≤ 7 * msPerDay + 24 * msPerHour :=
  weekly_next_time_spec (mkTime 2024 0 15 (10 * msPerHour)) _ 1 rfl (by decide)

/-- C5: getMillisecondsUntilNext is indeed the computed fire time minus now,
but it is not always non-negative: on 2024-04-30T10:00 with frequency
monthly and monthlyDay 31, the rollover test compares against the requested
day 31 while the clamp resolves to April 30, so the computed fire time is
04:00 the same morning — already past — and the timer delay is
-21600000 ms. -/
theorem milliseconds_until_next_negative :
    getMillisecondsUntilNext (mkTime 2024 3 30 (10 * msPerHour))
      ⟨"a@b.c", "monthly", "monday", 31⟩ = .ok (-21600000) ∧
    (∀ (now : Int) (s : EmailSettings) (r : Int),
      calculateNextScheduledTime now s = .ok r →
      getMillisecondsUntilNext now s = .ok (r - now)) := by
  refine ⟨by decide, fun now s r h => ?_⟩
  simp [getMillisecondsUntilNext, h, Except.map]

theorem milliseconds_until_next_negative_witness :
    getMillisecondsUntilNext 0 ⟨"a@b.c", "weekly", "monday", 1⟩ = .ok (360000000 - 0) :=
  milliseconds_until_next_negative.2 0 _ 360000000 (by decide)

/-! ### Theorems about the queue / process management -/

theorem procAlive_update (s : QState) (c : Nat) (l : Option Resp) :
    procAlive { s with clock := c, lastRes := l } = procAlive s := rfl

/-- C2: The single-slot discipline is not enforced: after the
staleExitTrace interleaving, jobs 2 and 3 are simultaneously in running
status and their two worker processes are both alive and unkilled. -/
theorem two_jobs_running_after_stale_exit :
    statusOf (qrun initQ staleExitTrace) 2 = some .running ∧
    statusOf (qrun initQ staleExitTrace) 3 = some .running ∧
    ((qrun initQ staleExitTrace).procs 2).map Proc.alive = some true ∧
    ((qrun initQ staleExitTrace).procs 3).map Proc.alive = some true ∧
    ((qrun initQ staleExitTrace).procs 2).map Proc.killed = some false ∧
    ((qrun initQ staleExitTrace).procs 3).map Proc.killed = some false := by
  decide

/-- C6 counterexample: retryJob on a job in status completed — not failed —
succeeds and creates (and starts) a brand-new running job. -/
theorem retry_completed_job_succeeds :
    statusOf (qrun initQ [.countyScrape "34", .procExit 1 0]) 1 = some .completed ∧
    (qrun initQ [.countyScrape "34", .procExit 1 0, .retryReq 1]).lastRes = some .ok ∧
    statusOf (qrun initQ [.countyScrape "34", .procExit 1 0, .retryReq 1]) 2
      = some .running := by
  decide

/-- C6 amended: retryJob never examines the source job's status.  It creates
and starts a brand-new job for the same county whenever the source job
exists, its county is registered and enabled, and no scraping process is
live — whatever the source status, failed or not; it is rejected (with no
job created) exactly on a missing job or a live process. -/
theorem retry_behavior :
    (∀ (s : QState) (jobId : Nat) (job : Job),
      s.jobs jobId = some job → s.counties job.county = some true →
      procAlive s = false →
      (qstep s (.retryReq jobId)).lastRes = some .ok ∧
      (qstep s (.retryReq jobId)).jobs s.nextJobId =
        some { county := job.county, status := .running, completedAt := none } ∧
      (qstep s (.retryReq jobId)).nextJobId = s.nextJobId + 1) ∧
    (∀ (s : QState) (jobId : Nat),
      (s.jobs jobId = none ∨ procAlive s = true) →
      (qstep s (.retryReq jobId)).jobs = s.jobs ∧
      (qstep s (.retryReq jobId)).nextJobId = s.nextJobId ∧
      (qstep s (.retryReq jobId)).lastRes ≠ some .ok) := by
  constructor
  · intro s jobId job hj hc hp
    simp [qstep, hj, hc, procAlive_update, hp, spawnJob, setJob, setProc]
  · intro s jobId h
    rcases h with h | h
    · simp [qstep, h]
    · cases hj : s.jobs jobId with
      | none => simp [qstep, hj]
      | some job =>
        cases hc : s.counties job.county with
        | none => simp [qstep, hj, hc]
        | some enabled =>
          cases enabled
          · simp [qstep, hj, hc]
          · simp [qstep, hj, hc, procAlive_update, h]

theorem retry_behavior_witness :
    (qstep (qrun initQ [.countyScrape "34", .procExit 1 0]) (.retryReq 1)).lastRes
      = some .ok ∧
    (qstep (qrun initQ [.countyScrape "34", .procExit 1 0]) (.retryReq 1)).jobs
      (qrun initQ [.countyScrape "34", .procExit 1 0]).nextJobId
      = some { county := "34", status := .running, completedAt := none } ∧
    (qstep (qrun initQ [.countyScrape "34", .procExit 1 0]) (.retryReq 1)).nextJobId
      = (qrun initQ [.countyScrape "34", .procExit 1 0]).nextJobId + 1 :=
  retry_behavior.1 (qrun initQ [.countyScrape "34", .procExit 1 0]) 1
    ⟨"34", .completed, some 2⟩ (by decide) (by decide) (by decide)

theorem statusOf_update (s : QState) (c : Nat) (l : Option Resp) (j : Nat) :
    statusOf { s with clock := c, lastRes := l } j = statusOf s j := rfl

theorem statusOf_setJob_ne (s : QState) (j j' : Nat) (job : Job) (h : j ≠ j') :
    statusOf (setJob s j' job) j = statusOf s j := by
  simp [setJob, statusOf, h]

theorem statusOf_setProc (s : QState) (pid : Nat) (p : Proc) (j : Nat) :
    statusOf (setProc s pid p) j = statusOf s j := rfl

theorem statusOf_spawnJob_lt (s : QState) (code : String) (k : ProcKind) (j : Nat)
    (h : j < s.nextJobId) : statusOf (spawnJob s code k) j = statusOf s j := by
  simp only [spawnJob, setJob, setProc, statusOf]
  rw [if_neg (by omega)]

theorem killCurrentProc_jobs (s : QState) : (killCurrentProc s).jobs = s.jobs := by
  unfold killCurrentProc
  split
  · rfl
  · split
    · rfl
    · split <;> rfl

/-- C9 counterexample: a job that finished with status completed is
re-stamped stopped by the stop-job endpoint — the terminal status is not
absorbing. -/
theorem stop_overwrites_completed :
    statusOf (qrun initQ [.countyScrape "34", .procExit 1 0]) 1 = some .completed ∧
    statusOf (qrun initQ [.countyScrape "34", .procExit 1 0, .stopJobReq 1]) 1
      = some .stopped := by
  decide

/-- C9 amended: Terminal statuses (completed, failed, stopped) are preserved
by every operation except the two stop handlers — stopJob on that job id and
stop-scraping, which mark the job stopped without checking its current
status — and the exit event of a worker process attached to that job, whose
handler overwrites the status with completed/failed; re-running the entity
still requires creating a new job row. -/
theorem terminal_status_changes :
    ∀ (s : QState) (ev : QEvent) (jobId : Nat) (job : Job),
      s.jobs jobId = some job → jobId < s.nextJobId →
      (job.status = .completed ∨ job.status = .failed ∨ job.status = .stopped) →
      statusOf (qstep s ev) jobId ≠ some job.status →
      (ev = .stopScraping ∨ ev = .stopJobReq jobId ∨
       ∃ pid code p, ev = .procExit pid code ∧ s.procs pid = some p ∧
         p.jobId = jobId) := by
  intro s ev jobId job hj hlt hterm hneq
  have hne : jobId ≠ s.nextJobId := by omega
  cases ev with
  | countyScrape code =>
    exfalso
    apply hneq
    simp only [qstep]
    repeat' split
    all_goals simp [statusOf, spawnJob, setJob, setProc, hj, hne]
  | startScraping code =>
    exfalso
    apply hneq
    simp only [qstep]
    repeat' split
    all_goals simp [statusOf, spawnJob, setJob, setProc, hj, hne]
  | stopScraping => exact Or.inl rfl
  | stopJobReq j' =>
    by_cases hjj : j' = jobId
    · exact Or.inr (Or.inl (by rw [hjj]))
    · exfalso
      apply hneq
      have hne2 : jobId ≠ j' := fun h => hjj h.symm
      simp only [qstep]
      repeat' split
      all_goals simp [statusOf, setJob, killCurrentProc_jobs, hj, hne2]
  | retryReq j' =>
    exfalso
    apply hneq
    simp only [qstep]
    repeat' split
    all_goals simp [statusOf, spawnJob, setJob, setProc, hj, hne]
  | procExit pid code =>
    cases hpo : s.procs pid with
    | none =>
      exfalso
      apply hneq
      simp [qstep, hpo, statusOf, hj]
    | some p =>
      by_cases hpj : p.jobId = jobId
      · exact Or.inr (Or.inr ⟨pid, code, p, rfl, hpo, hpj⟩)
      · exfalso
        apply hneq
        have hne3 : jobId ≠ p.jobId := fun h => hpj h.symm
        simp only [qstep, hpo]
        repeat' split
        all_goals simp [statusOf, setJob, setProc, hj, hne3]

theorem terminal_status_changes_witness :
    (QEvent.stopJobReq 1 = .stopScraping ∨ QEvent.stopJobReq 1 = .stopJobReq 1 ∨
     ∃ pid code p, QEvent.stopJobReq 1 = .procExit pid code ∧
       (qrun initQ [.countyScrape "34", .procExit 1 0]).procs pid = some p ∧
       p.jobId = 1) :=
  terminal_status_changes (qrun initQ [.countyScrape "34", .procExit 1 0])
    (.stopJobReq 1) 1 ⟨"34", .completed, some 2⟩
    (by decide) (by decide) (by decide) (by decide)

/-- C10 counterexample: POST /stop-scraping with no active job responds with
the 400 error payload (No scraping job running) — an error result, not a
non-error false — while indeed mutating no job record or queue state. -/
theorem stop_scraping_idle_is_error :
    (qstep initQ .stopScraping).lastRes = some .badRequest ∧
    (qstep initQ .stopScraping).jobs = initQ.jobs ∧
    (qstep initQ .stopScraping).procs = initQ.procs ∧
    (qstep initQ .stopScraping).currentScrapingJob = none ∧
    (qstep initQ .stopScraping).currentScrapingProcess = none ∧
    (qstep initQ .stopScraping).nextJobId = initQ.nextJobId :=
  ⟨rfl, rfl, rfl, rfl, rfl, rfl⟩

/-- C10 amended: stop-scraping with an empty slot responds with a 400 error
(not a non-error false) and leaves jobs, processes, the tracked slot and
the id counter unchanged; with an occupied slot it marks the tracked job
stopped with completedAt set to the current instant, sets the killed flag
on the live worker, clears both globals and responds with success. -/
theorem stop_scraping_behavior :
    (∀ (s : QState), s.currentScrapingJob = none →
      (qstep s .stopScraping).lastRes = some .badRequest ∧
      (qstep s .stopScraping).jobs = s.jobs ∧
      (qstep s .stopScraping).procs = s.procs ∧
      (qstep s .stopScraping).currentScrapingJob = none ∧
      (qstep s .stopScraping).currentScrapingProcess = s.currentScrapingProcess ∧
      (qstep s .stopScraping).nextJobId = s.nextJobId) ∧
    (∀ (s : QState) (jobId : Nat) (job : Job),
      s.currentScrapingJob = some jobId → s.jobs jobId = some job →
      (qstep s .stopScraping).lastRes = some .ok ∧
      (qstep s .stopScraping).jobs jobId =
        some { job with status := .stopped, completedAt := some (s.clock + 1) } ∧
      (qstep s .stopScraping).currentScrapingJob = none ∧
      (qstep s .stopScraping).currentScrapingProcess = none ∧
      (∀ (pid : Nat) (p : Proc), s.currentScrapingProcess = some pid →
        s.procs pid = some p →
        ((qstep s .stopScraping).procs pid).map Proc.killed = some true)) := by
  constructor
  · intro s h
    simp [qstep, h]
  · intro s jobId job hcur hj
    refine ⟨by simp [qstep, hcur, hj], ?_, by simp [qstep, hcur, hj], by simp [qstep, hcur, hj], ?_⟩
    · simp only [qstep, hcur, hj]
      rw [killCurrentProc_jobs]
      simp [setJob]
    · intro pid p hpid hp
      simp only [qstep, hcur, hj]
      simp only [killCurrentProc, setJob, hpid, hp]
      by_cases hk : p.killed
      · simp [hk, hp]
      · simp [hk, setProc]

theorem stop_scraping_behavior_witness :
    (qstep initQ .stopScraping).lastRes = some .badRequest ∧
    (qstep (qstep initQ (.countyScrape "34")) .stopScraping).lastRes = some .ok ∧
    (qstep (qstep initQ (.countyScrape "34")) .stopScraping).jobs 1 =
      some { county := "34", status := .stopped,
             completedAt := some ((qstep initQ (.countyScrape "34")).clock + 1) } :=
  ⟨(stop_scraping_behavior.1 initQ (by decide)).1,
   (stop_scraping_behavior.2 (qstep initQ (.countyScrape "34")) 1
     ⟨"34", .running, none⟩ (by decide) (by decide)).1,
   (stop_scraping_behavior.2 (qstep initQ (.countyScrape "34")) 1
     ⟨"34", .running, none⟩ (by decide) (by decide)).2.1⟩

/-! ### Theorems about the auto-scheduler -/

theorem stopAutoScheduler_armed (s : SchedulerState) (h : SchedulerWF s) :
    (stopAutoScheduler s).armed = [] := by
  rcases h with h | ⟨t, ht, hid⟩
  · unfold stopAutoScheduler
    split <;> simp [h]
  · unfold stopAutoScheduler
    rw [hid, ht]
    simp

theorem stopAutoScheduler_nextTimerId (s : SchedulerState) :
    (stopAutoScheduler s).nextTimerId = s.nextTimerId := by
  unfold stopAutoScheduler
  split <;> rfl

/-- Full characterization of the timers armed by one scheduleNext call on a
well-formed state, per path: settings-read failure, empty recipients,
calculator success and calculator failure. -/
theorem scheduleNext_char (s : SchedulerState) (now : Int)
    (res : Except Unit EmailSettings) (h : SchedulerWF s) :
    (res = .error () →
      (scheduleNext now res s).armed = [⟨s.nextTimerId, .retrySched, 3600000⟩] ∧
      (scheduleNext now res s).timeoutId = some s.nextTimerId) ∧
    (∀ st, res = .ok st → isBlank st.emails = true →
      (scheduleNext now res s).armed = []) ∧
    (∀ st nt, res = .ok st → isBlank st.emails = false →
      calculateNextScheduledTime now st = .ok nt →
      (scheduleNext now res s).armed = [⟨s.nextTimerId, .executeRun, nt - now⟩] ∧
      (scheduleNext now res s).timeoutId = some s.nextTimerId) ∧
    (∀ st e, res = .ok st → isBlank st.emails = false →
      calculateNextScheduledTime now st = .error e →
      (scheduleNext now res s).armed = [⟨s.nextTimerId, .retrySched, 3600000⟩] ∧
      (scheduleNext now res s).timeoutId = some s.nextTimerId) := by
  have harm := stopAutoScheduler_armed s h
  have hnid := stopAutoScheduler_nextTimerId s
  refine ⟨?_, ?_, ?_, ?_⟩
  · rintro rfl
    simp [scheduleNext, setTimeout, harm, hnid]
  · rintro st rfl hb
    simp [scheduleNext, setTimeout, hb, harm]
  · rintro st nt rfl hb hc
    simp [scheduleNext, setTimeout, hb, hc, harm, hnid]
  · rintro st e rfl hb hc
    simp [scheduleNext, setTimeout, hb, hc, harm, hnid]

theorem scheduleNext_wf (s : SchedulerState) (now : Int)
    (res : Except Unit EmailSettings) (h : SchedulerWF s) :
    SchedulerWF (scheduleNext now res s) := by
  have hchar := scheduleNext_char s now res h
  cases res with
  | error e =>
    rcases hchar.1 rfl with ⟨ha, ht⟩
    exact Or.inr ⟨_, ha, ht⟩
  | ok st =>
    cases hb : isBlank st.emails with
    | true => exact Or.inl (hchar.2.1 st rfl hb)
    | false =>
      cases hc : calculateNextScheduledTime now st with
      | ok nt =>
        rcases hchar.2.2.1 st nt rfl hb hc with ⟨ha, ht⟩
        exact Or.inr ⟨_, ha, ht⟩
      | error e =>
        rcases hchar.2.2.2 st e rfl hb hc with ⟨ha, ht⟩
        exact Or.inr ⟨_, ha, ht⟩

theorem schedulerStep_wf (s : SchedulerState) (op : SchedulerOp) (h : SchedulerWF s) :
    SchedulerWF (schedulerStep s op) := by
  cases op with
  | rearm now res => exact scheduleNext_wf _ _ _ h
  | timerFires now res q =>
    show SchedulerWF (fireTimer now res q s)
    cases ha : s.armed with
    | nil => simpa [fireTimer, ha] using h
    | cons t rest =>
      have hrest : rest = [] := by
        rcases h with h0 | ⟨t', ht', _⟩
        · rw [ha] at h0; cases h0
        · rw [ha] at ht'
          injection ht' with h1 h2
      subst hrest
      obtain ⟨tid, tkind, tdelay⟩ := t
      cases tkind with
      | executeRun =>
        simpa [fireTimer, ha, executeScheduledRun] using
          scheduleNext_wf { s with armed := [] } now res (Or.inl rfl)
      | retrySched =>
        simpa [fireTimer, ha] using
          scheduleNext_wf { s with armed := [] } now res (Or.inl rfl)
  | stopCall => exact Or.inl (stopAutoScheduler_armed s h)

theorem schedulerWF_length (s : SchedulerState) (h : SchedulerWF s) :
    s.armed.length ≤ 1 := by
  rcases h with h | ⟨t, ht, _⟩
  · simp [h]
  · simp [ht]

/-- C7 counterexample: a rearm call whose settings have no recipients
cancels the previously armed timer and arms nothing, so two rearms in
succession end with zero armed timers, not exactly one. -/
theorem rearm_empty_recipients_zero_timers :
    (scheduleNext 0 (.ok ⟨"a@b.c", "weekly", "monday", 1⟩) initScheduler).armed.length = 1 ∧
    (scheduleNext 0 (.ok ⟨"", "weekly", "monday", 1⟩)
      (scheduleNext 0 (.ok ⟨"a@b.c", "weekly", "monday", 1⟩) initScheduler)).armed.length
      = 0 := by
  decide

/-- C7 amended: The scheduler owns at most one outstanding armed timer at
all times — every operation (rearm, timer firing, stop) preserves the
single-timer ownership invariant — and rearm cancels before arming, so a
second rearm in succession leaves exactly one armed timer when it arms
(non-empty recipients, including the error-fallback path) and zero armed
timers when it takes the empty-recipients path. -/
theorem rearm_at_most_one_timer :
    (∀ (s : SchedulerState) (op : SchedulerOp), SchedulerWF s →
      SchedulerWF (schedulerStep s op) ∧ (schedulerStep s op).armed.length ≤ 1) ∧
    (∀ (s : SchedulerState) (now : Int) (settings : EmailSettings), SchedulerWF s →
      isBlank settings.emails = false →
      (scheduleNext now (.ok settings) s).armed.length = 1) ∧
    (∀ (s : SchedulerState) (now : Int) (settings : EmailSettings), SchedulerWF s →
      isBlank settings.emails = true →
      (scheduleNext now (.ok settings) s).armed = []) ∧
    (∀ (s : SchedulerState) (now : Int), SchedulerWF s →
      (scheduleNext now (.error ()) s).armed.length = 1) := by
  refine ⟨?_, ?_, ?_, ?_⟩
  · intro s op h
    exact ⟨schedulerStep_wf s op h, schedulerWF_length _ (schedulerStep_wf s op h)⟩
  · intro s now settings h hb
    have hchar := scheduleNext_char s now (.ok settings) h
    cases hc : calculateNextScheduledTime now settings with
    | ok nt => simp [(hchar.2.2.1 settings nt rfl hb hc).1]
    | error e => simp [(hchar.2.2.2 settings e rfl hb hc).1]
  · intro s now settings h hb
    exact (scheduleNext_char s now (.ok settings) h).2.1 settings rfl hb
  · intro s now h
    simp [((scheduleNext_char s now (.error ()) h).1 rfl).1]

theorem rearm_at_most_one_timer_witness :
    (scheduleNext 0 (.ok ⟨"a@b.c", "weekly", "monday", 1⟩) initScheduler).armed.length = 1 ∧
    (scheduleNext 0 (.ok ⟨"", "weekly", "monday", 1⟩) initScheduler).armed = [] ∧
    (scheduleNext 0 (.error ()) initScheduler).armed.length = 1 :=
  ⟨rearm_at_most_one_timer.2.1 initScheduler 0 _ (Or.inl rfl) (by decide),
   rearm_at_most_one_timer.2.2.1 initScheduler 0 _ (Or.inl rfl) (by decide),
   rearm_at_most_one_timer.2.2.2 initScheduler 0 (Or.inl rfl)⟩

/-- C8: After an armed timer fires, the loop always rearms: whatever the
outcome of the enqueue-all-counties step (any queueRes) and whatever the
settings read and the calculator do, a state with non-empty recipients ends
the firing turn with exactly one armed timer again — and when the rearm
itself fails (settings read rejects, or the calculator throws, e.g. on
frequency daily) the armed timer is the fixed one-hour fallback retry. -/
theorem timer_fire_always_rearms :
    ∀ (s : SchedulerState) (now : Int) (res : Except Unit EmailSettings)
      (q : Except Unit (List Nat)) (t : ArmedTimer) (rest : List ArmedTimer),
      SchedulerWF s → s.armed = t :: rest →
      (∀ st, res = .ok st → isBlank st.emails = false) →
      (fireTimer now res q s).armed.length = 1 ∧
      (∀ st e, res = .ok st → calculateNextScheduledTime now st = .error e →
        ∃ i, (fireTimer now res q s).armed = [⟨i, .retrySched, 3600000⟩]) ∧
      (res = .error () →
        ∃ i, (fireTimer now res q s).armed = [⟨i, .retrySched, 3600000⟩]) := by
  intro s now res q t rest h ha hnb
  have hrest : rest = [] := by
    rcases h with h0 | ⟨t', ht', _⟩
    · rw [ha] at h0; cases h0
    · rw [ha] at ht'
      injection ht' with h1 h2
  subst hrest
  obtain ⟨tid, tkind, tdelay⟩ := t
  have hred : fireTimer now res q s =
      scheduleNext now res { s with armed := [] } := by
    cases tkind <;> simp [fireTimer, ha, executeScheduledRun]
  rw [hred]
  have hchar := scheduleNext_char { s with armed := [] } now res (Or.inl rfl)
  refine ⟨?_, ?_, ?_⟩
  · cases res with
    | error e =>
      simp [(hchar.1 rfl).1]
    | ok st =>
      cases hc : calculateNextScheduledTime now st with
      | ok nt => simp [(hchar.2.2.1 st nt rfl (hnb st rfl) hc).1]
      | error e => simp [(hchar.2.2.2 st e rfl (hnb st rfl) hc).1]
  · rintro st e rfl hc
    exact ⟨_, (hchar.2.2.2 st e rfl (hnb st rfl) hc).1⟩
  · rintro rfl
    exact ⟨_, (hchar.1 rfl).1⟩

theorem timer_fire_always_rearms_witness :
    (fireTimer 0 (.ok ⟨"a@b.c", "daily", "monday", 1⟩) (.ok [])
      (scheduleNext 0 (.ok ⟨"a@b.c", "weekly", "monday", 1⟩) initScheduler)).armed.length
      = 1 ∧
    (∀ st e, (Except.ok ⟨"a@b.c", "daily", "monday", 1⟩ : Except Unit EmailSettings)
        = .ok st → calculateNextScheduledTime 0 st = .error e →
      ∃ i, (fireTimer 0 (.ok ⟨"a@b.c", "daily", "monday", 1⟩) (.ok [])
        (scheduleNext 0 (.ok ⟨"a@b.c", "weekly", "monday", 1⟩) initScheduler)).armed
        = [⟨i, .retrySched, 3600000⟩]) ∧
    ((Except.ok ⟨"a@b.c", "daily", "monday", 1⟩ : Except Unit EmailSettings)
        = .error () →
      ∃ i, (fireTimer 0 (.ok ⟨"a@b.c", "daily", "monday", 1⟩) (.ok [])
        (scheduleNext 0 (.ok ⟨"a@b.c", "weekly", "monday", 1⟩) initScheduler)).armed
        = [⟨i, .retrySched, 3600000⟩]) :=
  timer_fire_always_rearms
    (scheduleNext 0 (.ok ⟨"a@b.c", "weekly", "monday", 1⟩) initScheduler)
    0 (.ok ⟨"a@b.c", "daily", "monday", 1⟩) (.ok [])
    ⟨1, .executeRun, 360000000 - 0⟩ []
    (Or.inr ⟨⟨1, .executeRun, 360000000 - 0⟩, by decide, by decide⟩)
    (by decide)
    (by intro st h; cases h; decide)

end DsaScraper
